import Mathlib

/-!
Shallow embedding of the deduplicated fetch pipeline of `src/news_update.py`
(repository EntrezAudioNews).

Correspondence with the source:

* `GET_LATEST_PUBMED_FLAG`            — line 19, the sentinel query token.
* `load_processed_ids`                — lines 50-54; the ledger file is modelled as
  `Option (List String)` (`none` = file absent, `some lines` = its lines without
  the trailing newline characters).
* `searchTerm` / `search_pubmed`      — lines 61-96.  The upstream ESearch call is a
  parameter `es : String → Nat → Option (List String)`; `none` models a request
  failure or a JSON-decode failure (both caught and turned into `[]` by the
  source), `some pmids` models a parsed `esearchresult.idlist`.
* `PubmedArticleXml` and the parsing helpers (`assemble_abstract`,
  `authorName` / `resolveAuthor` / `resolve_authors`, `journal_date`,
  `historyCandidate`, `selectHistoryNodes`, `resolve_pub_date`, `parse_article`)
  — lines 119-220, the per-article XML parsing of `fetch_pubmed_articles_details`.
  A field of type `Option String` is `none` when the XML node (or its text) is
  absent.
* `fetch_pubmed_articles_details`     — lines 98-229; the EFetch transport and the
  XML document are a parameter `ef : List String → Option (List PubmedArticleXml)`;
  `ef batch = none` models a request failure or an XML parse failure (both caught
  and turned into `[]` by the source).
* `filterNew`                         — lines 247-252, the candidate filter that keeps, in
  order, the first `articles_per_query` PMIDs not in the ledger.
* `processLoop` / `mkRecord`          — lines 262-296, the validation gate and the record
  construction loop (a rejected or pmid-less article is skipped; an accepted
  pmid is added to the in-memory ledger).
* `fetch_entrez_articles_for_news_update` — lines 232-300.  The `processed_ids`
  parameter models the set returned by `load_processed_ids()` at line 233;
  the field `saved` of the result models the `save_processed_ids` call at line
  298 (`none` when the run returns early and never reaches the save); the field
  `detailBatches` records the batches on which `fetch_pubmed_articles_details`
  is invoked (line 260).
* `splitNl` / `idLines` / `reload`    — the save → load round trip between runs:
  `save_processed_ids` writes the newline-join of the set (line 58) and the
  next run's `load_processed_ids` strips each line of the file (lines 53-54),
  so the set read back is the set of stripped newline-split pieces of the
  stored identifiers — NOT the stored set itself when an identifier carries
  surrounding whitespace or an embedded newline.
* `runSeq`                            — sequential runs sharing the ledger file: each run
  starts from the `reload` of the set persisted by the previous one (unchanged
  when the previous run returned before its save).
-/

def GET_LATEST_PUBMED_FLAG : String := "__GET_LATEST_PUBMED_ARTICLES__"

def NO_ABSTRACT : String := "無摘要"

def NO_DATE : String := "無出版日期"

/-- Python `str.strip()` (no argument): drop leading and trailing whitespace.
Defined on the character list so that it reduces inside the kernel. -/
def pyStrip (s : String) : String :=
  String.mk (((s.data.dropWhile Char.isWhitespace).reverse.dropWhile
    Char.isWhitespace).reverse)

/-- Python `str.lower()` on the ASCII strings involved here.  Defined on the
character list so that it reduces inside the kernel. -/
def toLowerStr (s : String) : String := String.mk (s.data.map Char.toLower)

/-- Model of `load_processed_ids` (lines 50-54): absent file gives the empty
set, otherwise the set of stripped lines. -/
def load_processed_ids (file : Option (List String)) : Finset String :=
  match file with
  | none => ∅
  | some lines => (lines.map pyStrip).toFinset

/-- Model of the query-term rewrite inside `search_pubmed` (lines 64-67): the
sentinel is replaced by the broad search expression. -/
def searchTerm (query : String) : String :=
  if query = GET_LATEST_PUBMED_FLAG then "pubmed[sb]" else query

/-- Model of `search_pubmed` (lines 61-96).  `es` is the upstream ESearch
outcome at a given term and retmax; `none` (failure) and a missing idlist both
yield `[]`, exactly as the `except` clauses of the source do. -/
def search_pubmed (es : String → Nat → Option (List String))
    (query : String) (retmax : Nat) : List String :=
  match es (searchTerm query) retmax with
  | none => []
  | some pmids => pmids

structure AbstractPart where
  label : Option String
  text : String
  deriving Repr, DecidableEq

structure AuthorEntry where
  lastName : Option String
  foreName : Option String
  initials : Option String
  deriving Repr, DecidableEq

structure PubDateNode where
  year : Option String
  month : Option String
  day : Option String
  deriving Repr, DecidableEq

structure HistoryNode where
  pubStatus : String
  year : Option String
  month : Option String
  day : Option String
  deriving Repr, DecidableEq

/-- One `PubmedArticle` element of the EFetch XML, reduced to the nodes the
source reads. -/
structure PubmedArticleXml where
  pmid : Option String
  title : Option String
  abstractParts : List AbstractPart
  authorList : Option (List AuthorEntry)
  journalPubDate : Option PubDateNode
  history : List HistoryNode
  deriving Repr, DecidableEq

/-- Result of parsing one article (the dict `article_info` of the source). -/
structure ArticleInfo where
  pmid : Option String
  title : String
  abstract : String
  authors : List String
  published_date : String
  deriving Repr, DecidableEq

/-- Python truthiness of an optional string: present and non-empty. -/
def truthy : Option String → Bool
  | some s => s ≠ ""
  | none => false

/-- Model of one `AbstractText` part (lines 133-140): empty text is skipped, a
truthy `Label` attribute is prefixed. -/
def abstractPartText (p : AbstractPart) : Option String :=
  let t := pyStrip p.text
  if t = "" then none
  else if truthy p.label then some ((p.label.getD "") ++ ": " ++ t)
  else some t

/-- Model of the abstract assembly (lines 132-145): newline-join of the parts,
sentinel if none. -/
def assemble_abstract (parts : List AbstractPart) : String :=
  let l := parts.filterMap abstractPartText
  if l = [] then NO_ABSTRACT else String.intercalate "\n" l

/-- Model of the author-name construction (lines 156-163): surname, then given
name, else initials, each guarded by Python truthiness. -/
def authorName (e : AuthorEntry) : String :=
  let n : String := ""
  let n := if truthy e.lastName then n ++ e.lastName.getD "" else n
  let n :=
    if truthy e.foreName then n ++ " " ++ e.foreName.getD ""
    else if truthy e.initials then n ++ " " ++ e.initials.getD ""
    else n
  n

/-- Model of lines 164-165: the built name is stripped and kept only when
non-empty. -/
def resolveAuthor (e : AuthorEntry) : Option String :=
  let n := pyStrip (authorName e)
  if n = "" then none else some n

/-- Model of lines 148-166: the author list of the article; the sentinel
single-element list when no entry resolved (or the `AuthorList` node is
absent). -/
def resolve_authors (authorList : Option (List AuthorEntry)) : List String :=
  match authorList with
  | none => ["無作者資訊"]
  | some entries =>
    let l := entries.filterMap resolveAuthor
    if l = [] then ["無作者資訊"] else l

/-- Python `str.isdigit` on the strings that occur here: non-empty and all
decimal digits. -/
def isdigitStr (s : String) : Bool := s ≠ "" && s.data.all Char.isDigit

/-- Python `str.zfill(2)`: left-pad with zeros to width two. -/
def zfill2 (s : String) : String :=
  if 2 ≤ s.length then s else String.mk (List.replicate (2 - s.length) '0') ++ s

/-- Model of `datetime.strptime(month, "%b").month`: the case-insensitive
three-letter month abbreviation, `none` when `strptime` raises. -/
def monthAbbrevNum (s : String) : Option Nat :=
  match toLowerStr s with
  | "jan" => some 1
  | "feb" => some 2
  | "mar" => some 3
  | "apr" => some 4
  | "may" => some 5
  | "jun" => some 6
  | "jul" => some 7
  | "aug" => some 8
  | "sep" => some 9
  | "oct" => some 10
  | "nov" => some 11
  | "dec" => some 12
  | _ => none

/-- Model of the primary date resolution from `Journal/JournalIssue/PubDate`
(lines 169-189). -/
def journal_date (primary : Option PubDateNode) : String :=
  match primary with
  | none => NO_DATE
  | some nd =>
    match nd.year with
    | none => NO_DATE
    | some y =>
      if y = "" then NO_DATE
      else
        match nd.month with
        | none => y
        | some m =>
          if m = "" then y
          else
            let withMonth :=
              if isdigitStr m then y ++ "-" ++ zfill2 m
              else
                match monthAbbrevNum m with
                | some k => y ++ "-" ++ zfill2 (toString k)
                | none => y ++ "-" ++ m
            match nd.day with
            | none => withMonth
            | some d => if isdigitStr d then withMonth ++ "-" ++ zfill2 d else withMonth

/-- Model of the candidate date built from one `PubMedPubDate` history node
(lines 203-212): every component must be a digit string. -/
def historyCandidate (nd : HistoryNode) : String :=
  match nd.year with
  | none => NO_DATE
  | some y =>
    if isdigitStr y then
      match nd.month with
      | none => y
      | some m =>
        if isdigitStr m then
          let s := y ++ "-" ++ zfill2 m
          match nd.day with
          | none => s
          | some d => if isdigitStr d then s ++ "-" ++ zfill2 d else s
        else y
    else NO_DATE

/-- Python `s.replace(pat, "")` on character lists: left-to-right scan erasing
non-overlapping occurrences of `pat`.  Written with explicit fuel (one unit per
scanned character suffices) so that it is structurally recursive and reduces
inside the kernel. -/
def eraseOccs (pat : List Char) : Nat → List Char → List Char
  | _, [] => []
  | 0, l => l
  | fuel + 1, c :: rest =>
    if pat ≠ [] ∧ pat.isPrefixOf (c :: rest) then
      eraseOccs pat fuel ((c :: rest).drop pat.length)
    else c :: eraseOccs pat fuel rest

/-- Python `s.replace(pat, "")` (the only use of `str.replace` in the source is
with an empty replacement, at line 215). -/
def replaceEmpty (s pat : String) : String :=
  String.mk (eraseOccs pat.data s.data.length s.data)

/-- Model of the three `findall` attempts of lines 194-198: entries tagged
`pubmed` first, else entries tagged `entrez`, else all entries. -/
def selectHistoryNodes (hist : List HistoryNode) : List HistoryNode :=
  let pub := hist.filter (fun nd => nd.pubStatus == "pubmed")
  if pub ≠ [] then pub
  else
    let ent := hist.filter (fun nd => nd.pubStatus == "entrez")
    if ent ≠ [] then ent else hist

/-- Model of the full published-date fallback chain (lines 168-218). -/
def resolve_pub_date (primary : Option PubDateNode) (hist : List HistoryNode) : String :=
  let base := journal_date primary
  if base = NO_DATE ∨ base.length < 10 then
    match (selectHistoryNodes hist).head? with
    | none => base
    | some nd =>
      let curr := historyCandidate nd
      if curr ≠ NO_DATE ∧ (replaceEmpty base NO_DATE).length < curr.length then curr
      else base
  else base

/-- Model of the per-article parsing of `fetch_pubmed_articles_details`
(lines 119-220). -/
def parse_article (x : PubmedArticleXml) : ArticleInfo :=
  { pmid := x.pmid
    title := match x.title with | some t => pyStrip t | none => "無標題"
    abstract := assemble_abstract x.abstractParts
    authors := resolve_authors x.authorList
    published_date := resolve_pub_date x.journalPubDate x.history }

/-- Model of `fetch_pubmed_articles_details` (lines 98-229): empty input short
circuits, a failed request or unparsable document yields `[]`, otherwise every
article element of the document is parsed. -/
def fetch_pubmed_articles_details
    (ef : List String → Option (List PubmedArticleXml))
    (pmids : List String) : List ArticleInfo :=
  if pmids = [] then []
  else
    match ef pmids with
    | none => []
    | some arts => arts.map parse_article

/-- The article record dict built at lines 283-294. -/
structure ArticleRecord where
  query : String
  id : String
  url : String
  title : String
  summary : String
  authors : List String
  published_date : String
  journal : String
  doi : String
  source : String
  deriving Repr, DecidableEq

/-- Model of the query-source label stored in a record (lines 279-281). -/
def article_query_source (query_term : String) : String :=
  if query_term = GET_LATEST_PUBMED_FLAG then "Latest PubMed Articles" else query_term

/-- The record construction of lines 283-294. -/
def mkRecord (query_term : String) (pmid : String) (a : ArticleInfo) : ArticleRecord :=
  { query := article_query_source query_term
    id := pmid
    url := "https://pubmed.ncbi.nlm.nih.gov/" ++ pmid ++ "/"
    title := a.title
    summary := a.abstract
    authors := a.authors
    published_date := a.published_date
    journal := "期刊需擴展 EFetch 解析"
    doi := "DOI 需擴展 EFetch 解析"
    source := "PubMed" }

/-- Model of the candidate filter of lines 247-252: keep, in order, unseen
PMIDs, stopping as soon as `articles_per_query` have been collected (the
Python loop breaks once the accumulator length reaches the target, so a target
of zero still collects one). -/
def filterNew (processed_ids : Finset String) (n : Nat) : List String → List String
  | [] => []
  | p :: rest =>
    if p ∈ processed_ids then filterNew processed_ids n rest
    else if n ≤ 1 then [p]
    else p :: filterNew processed_ids (n - 1) rest

/-- The per-article loop of lines 262-296: skip articles without a truthy
pmid, skip articles whose abstract is falsy or strips to fewer than 50
characters, otherwise build the record and add the pmid to the in-memory
ledger. -/
def processLoop (query_term : String) (raw : List ArticleInfo)
    (processed_ids : Finset String) : List ArticleRecord × Finset String :=
  match raw with
  | [] => ([], processed_ids)
  | a :: rest =>
    match a.pmid with
    | none => processLoop query_term rest processed_ids
    | some pmid =>
      if pmid = "" then processLoop query_term rest processed_ids
      else if a.abstract = "" ∨ (pyStrip a.abstract).length < 50 then
        processLoop query_term rest processed_ids
      else
        let r0 := mkRecord query_term pmid a
        let next := processLoop query_term rest (insert pmid processed_ids)
        (r0 :: next.1, next.2)

/-- The acceptance decision of the loop body for a single article; used to
state what `processLoop` produces. -/
def acceptDetail (query_term : String) (a : ArticleInfo) : Option ArticleRecord :=
  match a.pmid with
  | none => none
  | some pmid =>
    if pmid = "" then none
    else if a.abstract = "" ∨ (pyStrip a.abstract).length < 50 then none
    else some (mkRecord query_term pmid a)

/-- Outcome of one pipeline run: the returned records, the set handed to
`save_processed_ids` (line 298) when that call is reached, and the batches on
which the detail adapter was invoked (line 260). -/
structure FetchResult where
  records : List ArticleRecord
  saved : Option (Finset String)
  detailBatches : List (List String)
  deriving DecidableEq

/-- Model of `fetch_entrez_articles_for_news_update` (lines 232-300).
`processed_ids` is the set loaded at line 233. -/
def fetch_entrez_articles_for_news_update
    (es : String → Nat → Option (List String))
    (ef : List String → Option (List PubmedArticleXml))
    (processed_ids : Finset String)
    (query_term : String) (articles_per_query : Nat) : FetchResult :=
  let pmids_to_search := articles_per_query + 15
  let all_found_pmids := search_pubmed es query_term pmids_to_search
  if all_found_pmids = [] then ⟨[], none, []⟩
  else
    let new_pmids := filterNew processed_ids articles_per_query all_found_pmids
    if new_pmids = [] then ⟨[], none, []⟩
    else
      let raw := fetch_pubmed_articles_details ef new_pmids
      let done := processLoop query_term raw processed_ids
      ⟨done.1, some done.2, [new_pmids]⟩

/-- One run of a sequence: its adapters, query term and target count. -/
structure RunSpec where
  esearch : String → Nat → Option (List String)
  efetch : List String → Option (List PubmedArticleXml)
  query : String
  n : Nat

/-- Split a character list at every newline character, keeping empty pieces.
Structurally recursive so that it reduces inside the kernel. -/
def splitNl : List Char → List (List Char)
  | [] => [[]]
  | c :: rest =>
    if c = '\n' then [] :: splitNl rest
    else
      match splitNl rest with
      | [] => [[c]]
      | l :: ls => (c :: l) :: ls

/-- The ledger-file lines one stored identifier contributes: the file is the
newline-join of the stored set (line 58), so an identifier's own newline
characters split it into several lines. -/
def idLines (id : String) : List String := (splitNl id.data).map String.mk

/-- Model of the save → load round trip between two runs (line 58, then lines
53-54): the next run reads back the set of stripped lines of the saved file;
an identifier with surrounding whitespace or embedded newlines does NOT read
back as itself.  (Corner: when the identifier that the unordered join happens
to serialize last ends in a newline, `readlines` yields no final empty line
while the model keeps the empty piece; identifiers the pipeline itself accepts
are truthy pmid texts, never that empty piece.) -/
def reload (S : Finset String) : Finset String :=
  S.biUnion (fun id => ((idLines id).map pyStrip).toFinset)

/-- Sequential pipeline runs sharing the ledger file: each run loads the
stripped lines of the file persisted by the previous run (the file — hence the
loaded set — is unchanged when the previous run returned before its save). -/
def runSeq (L : Finset String) : List RunSpec → List (List ArticleRecord) × Finset String
  | [] => ([], L)
  | s :: rest =>
    let res := fetch_entrez_articles_for_news_update s.esearch s.efetch L s.query s.n
    let next := runSeq ((res.saved.map reload).getD L) rest
    (res.records :: next.1, next.2)

/-- Number of accepted records carrying identifier `X` across the outputs of a
sequence of runs. -/
def countAccepted (X : String) : List (List ArticleRecord) → Nat
  | [] => 0
  | out :: rest => ((out.map (fun r => r.id)).count X) + countAccepted X rest

/-- The truthy pmids of the article elements of an EFetch document, in
order. -/
def xmlPmids (arts : List PubmedArticleXml) : List String :=
  arts.filterMap (fun x =>
    match x.pmid with
    | some p => if p = "" then none else some p
    | none => none)

/-- A detail adapter is honest when every article it returns carries a (truthy)
pmid from the requested batch — what the real EFetch endpoint provides. -/
def HonestEfetch (ef : List String → Option (List PubmedArticleXml)) : Prop :=
  ∀ batch arts, ef batch = some arts →
    ∀ x ∈ arts, ∀ p, x.pmid = some p → p ≠ "" → p ∈ batch

/-- A detail adapter returns at most one article per identifier — what the
real EFetch endpoint provides. -/
def NodupEfetch (ef : List String → Option (List PubmedArticleXml)) : Prop :=
  ∀ batch arts, ef batch = some arts → (xmlPmids arts).Nodup

/-! Concrete adapters used to evaluate the model on the scenarios of the
specification. -/

/-- Search outcome with the two candidates of the end-to-end scenario. -/
def esAB : String → Nat → Option (List String) := fun _ _ => some ["111", "222"]

/-- Search outcome with a single candidate. -/
def esOne : String → Nat → Option (List String) := fun _ _ => some ["111"]

/-- Search outcome modelling a failed or JSON-undecodable ESearch request. -/
def esNone : String → Nat → Option (List String) := fun _ _ => none

/-- A 200-character abstract, as in the end-to-end scenario of the spec. -/
def longAbs : String := String.mk (List.replicate 200 'a')

/-- A well-formed article element with a long abstract for pmid `p`. -/
def goodArticle (p : String) : PubmedArticleXml :=
  ⟨some p, some "T", [⟨none, longAbs⟩], none, none, []⟩

/-- Detail adapter returning one well-formed long-abstract article per distinct
non-empty requested pmid. -/
def efGood : List String → Option (List PubmedArticleXml) :=
  fun batch => some (((batch.dedup).filter (fun p => !(p == ""))).map goodArticle)

/-- An article element whose abstract strips to fewer than 50 characters. -/
def shortArticle (p : String) : PubmedArticleXml :=
  ⟨some p, some "T", [⟨none, "short abstract"⟩], none, none, []⟩

/-- Detail adapter returning one short-abstract article per distinct non-empty
requested pmid. -/
def efShort : List String → Option (List PubmedArticleXml) :=
  fun batch => some (((batch.dedup).filter (fun p => !(p == ""))).map shortArticle)

/-- Detail adapter modelling a failed or unparsable EFetch request. -/
def efFail : List String → Option (List PubmedArticleXml) := fun _ => none

/-- A run of the end-to-end scenario, used for run sequences. -/
def specGood : RunSpec := ⟨esAB, efGood, "diabetes management", 1⟩

/-- Search outcome with a single whitespace-padded candidate identifier. -/
def esPad : String → Nat → Option (List String) := fun _ _ => some [" 1 "]

/-- A run whose only candidate is the whitespace-padded identifier (the detail
adapter returns, honestly, one article per distinct non-empty requested pmid). -/
def specPad : RunSpec := ⟨esPad, efGood, "cancer treatment", 1⟩

/-- The record the pipeline builds for pmid `"111"` from `goodArticle` under
the query term of the end-to-end scenario. -/
def recA : ArticleRecord :=
  ⟨"diabetes management", "111", "https://pubmed.ncbi.nlm.nih.gov/111/", "T", longAbs,
   ["無作者資訊"], NO_DATE, "期刊需擴展 EFetch 解析", "DOI 需擴展 EFetch 解析", "PubMed"⟩

/-- The record the pipeline builds for pmid `"111"` from `goodArticle` under
the sentinel query term. -/
def recFlag : ArticleRecord :=
  ⟨"Latest PubMed Articles", "111", "https://pubmed.ncbi.nlm.nih.gov/111/", "T", longAbs,
   ["無作者資訊"], NO_DATE, "期刊需擴展 EFetch 解析", "DOI 需擴展 EFetch 解析", "PubMed"⟩

/-! Helper lemmas about the loop, the candidate filter and the pipeline. -/

theorem acceptDetail_inv {q : String} {a : ArticleInfo} {r : ArticleRecord}
    (h : acceptDetail q a = some r) :
    a.pmid = some r.id ∧ r.id ≠ "" ∧ r.summary = a.abstract ∧
      a.abstract ≠ "" ∧ 50 ≤ (pyStrip a.abstract).length ∧
      r.query = article_query_source q := by
  unfold acceptDetail at h
  rcases hp : a.pmid with _ | pmid
  · rw [hp] at h; cases h
  · rw [hp] at h
    dsimp only at h
    by_cases h1 : pmid = ""
    · rw [if_pos h1] at h; cases h
    · rw [if_neg h1] at h
      by_cases h2 : a.abstract = "" ∨ (pyStrip a.abstract).length < 50
      · rw [if_pos h2] at h; cases h
      · rw [if_neg h2, Option.some_inj] at h
        subst h
        push_neg at h2
        exact ⟨rfl, h1, rfl, h2.1, h2.2, rfl⟩

theorem processLoop_records (q : String) (raw : List ArticleInfo) (ids : Finset String) :
    (processLoop q raw ids).1 = raw.filterMap (acceptDetail q) := by
  induction raw generalizing ids with
  | nil => rfl
  | cons a rest ih =>
    rcases hp : a.pmid with _ | pmid
    · simp only [processLoop, acceptDetail, List.filterMap_cons, hp]
      exact ih ids
    · by_cases h1 : pmid = ""
      · simp only [processLoop, acceptDetail, List.filterMap_cons, hp, h1, if_true]
        simpa using ih ids
      · by_cases h2 : a.abstract = "" ∨ (pyStrip a.abstract).length < 50
        · simp only [processLoop, acceptDetail, List.filterMap_cons, hp]
          simp only [h1, h2, if_false, if_true, ite_true, ite_false]
          simpa [h1, h2] using ih ids
        · simp only [processLoop, acceptDetail, List.filterMap_cons, hp]
          simp only [h1, h2, ite_false]
          simpa [h1, h2] using ih (insert pmid ids)

theorem processLoop_ids (q : String) (raw : List ArticleInfo) (ids : Finset String) :
    (processLoop q raw ids).2 =
      ids ∪ ((raw.filterMap (acceptDetail q)).map (fun r => r.id)).toFinset := by
  induction raw generalizing ids with
  | nil => simp [processLoop]
  | cons a rest ih =>
    rcases hp : a.pmid with _ | pmid
    · simp only [processLoop, acceptDetail, List.filterMap_cons, hp]
      exact ih ids
    · by_cases h1 : pmid = ""
      · simp only [processLoop, acceptDetail, List.filterMap_cons, hp, h1, if_true]
        simpa using ih ids
      · by_cases h2 : a.abstract = "" ∨ (pyStrip a.abstract).length < 50
        · simp only [processLoop, acceptDetail, List.filterMap_cons, hp]
          simp only [h1, h2, ite_false, ite_true]
          simpa [h1, h2] using ih ids
        · simp only [processLoop, acceptDetail, List.filterMap_cons, hp]
          simp only [h1, h2, ite_false]
          simp only [h1, h2, if_neg, ite_false, List.map_cons, List.toFinset_cons]
          rw [ih (insert pmid ids)]
          have : (mkRecord q pmid a).id = pmid := rfl
          rw [this, Finset.insert_union, Finset.union_insert]

theorem filterNew_mem {L : Finset String} {n : Nat} {cands : List String} {p : String}
    (h : p ∈ filterNew L n cands) : p ∈ cands ∧ p ∉ L := by
  induction cands generalizing n with
  | nil => simp [filterNew] at h
  | cons c rest ih =>
    unfold filterNew at h
    by_cases hc : c ∈ L
    · rw [if_pos hc] at h
      rcases ih h with ⟨h1, h2⟩
      exact ⟨List.mem_cons_of_mem _ h1, h2⟩
    · rw [if_neg hc] at h
      by_cases hn : n ≤ 1
      · rw [if_pos hn] at h
        simp only [List.mem_singleton] at h
        subst h
        exact ⟨List.mem_cons_self _ _, hc⟩
      · rw [if_neg hn] at h
        rcases List.mem_cons.mp h with h | h
        · subst h
          exact ⟨List.mem_cons_self _ _, hc⟩
        · rcases ih h with ⟨h1, h2⟩
          exact ⟨List.mem_cons_of_mem _ h1, h2⟩

theorem fetch_cases (es : String → Nat → Option (List String))
    (ef : List String → Option (List PubmedArticleXml))
    (L : Finset String) (q : String) (n : Nat) :
    (fetch_entrez_articles_for_news_update es ef L q n = ⟨[], none, []⟩) ∨
    (filterNew L n (search_pubmed es q (n + 15)) ≠ [] ∧
      fetch_entrez_articles_for_news_update es ef L q n =
        ⟨(processLoop q (fetch_pubmed_articles_details ef
            (filterNew L n (search_pubmed es q (n + 15)))) L).1,
          some (processLoop q (fetch_pubmed_articles_details ef
            (filterNew L n (search_pubmed es q (n + 15)))) L).2,
          [filterNew L n (search_pubmed es q (n + 15))]⟩) := by
  simp only [fetch_entrez_articles_for_news_update]
  by_cases h0 : search_pubmed es q (n + 15) = []
  · left; simp [h0]
  · by_cases h1 : filterNew L n (search_pubmed es q (n + 15)) = []
    · left; simp [h0, h1]
    · right
      refine ⟨h1, ?_⟩
      simp [h0, h1]

theorem mem_records_struct {es : String → Nat → Option (List String)}
    {ef : List String → Option (List PubmedArticleXml)}
    {L : Finset String} {q : String} {n : Nat} {r : ArticleRecord}
    (hr : r ∈ (fetch_entrez_articles_for_news_update es ef L q n).records) :
    ∃ arts, ef (filterNew L n (search_pubmed es q (n + 15))) = some arts ∧
      ∃ x ∈ arts, acceptDetail q (parse_article x) = some r := by
  rcases fetch_cases es ef L q n with h | ⟨hb, h⟩
  · rw [h] at hr
    simp at hr
  · rw [h] at hr
    simp only at hr
    rw [processLoop_records] at hr
    unfold fetch_pubmed_articles_details at hr
    rw [if_neg hb] at hr
    rcases he : ef (filterNew L n (search_pubmed es q (n + 15))) with _ | arts
    · rw [he] at hr
      simp at hr
    · rw [he] at hr
      rcases List.mem_filterMap.mp hr with ⟨a, ha, hacc⟩
      rcases List.mem_map.mp ha with ⟨x, hx, rfl⟩
      exact ⟨arts, rfl, x, hx, hacc⟩

theorem mem_records_saved {es : String → Nat → Option (List String)}
    {ef : List String → Option (List PubmedArticleXml)}
    {L : Finset String} {q : String} {n : Nat} {r : ArticleRecord}
    (hr : r ∈ (fetch_entrez_articles_for_news_update es ef L q n).records) :
    ∃ S, (fetch_entrez_articles_for_news_update es ef L q n).saved = some S ∧ r.id ∈ S := by
  rcases fetch_cases es ef L q n with h | ⟨hb, h⟩
  · rw [h] at hr
    simp at hr
  · rw [h] at hr ⊢
    simp only at hr ⊢
    refine ⟨_, rfl, ?_⟩
    rw [processLoop_ids]
    rw [processLoop_records] at hr
    apply Finset.mem_union_right
    rw [List.mem_toFinset]
    exact List.mem_map.mpr ⟨r, hr, rfl⟩

theorem saved_superset {es : String → Nat → Option (List String)}
    {ef : List String → Option (List PubmedArticleXml)}
    {L : Finset String} {q : String} {n : Nat} {S : Finset String}
    (h : (fetch_entrez_articles_for_news_update es ef L q n).saved = some S) :
    L ⊆ S ∧ S = L ∪ (((fetch_entrez_articles_for_news_update es ef L q n).records).map
      (fun r => r.id)).toFinset := by
  rcases fetch_cases es ef L q n with hc | ⟨hb, hc⟩
  · rw [hc] at h
    simp at h
  · rw [hc] at h ⊢
    simp only at h ⊢
    rw [Option.some_inj] at h
    subst h
    rw [processLoop_ids, processLoop_records]
    exact ⟨Finset.subset_union_left, rfl⟩

theorem record_id_batch {es : String → Nat → Option (List String)}
    {ef : List String → Option (List PubmedArticleXml)}
    {L : Finset String} {q : String} {n : Nat} {r : ArticleRecord}
    (hf : HonestEfetch ef)
    (hr : r ∈ (fetch_entrez_articles_for_news_update es ef L q n).records) :
    r.id ∈ filterNew L n (search_pubmed es q (n + 15)) ∧ r.id ∉ L := by
  rcases mem_records_struct hr with ⟨arts, he, x, hx, hacc⟩
  rcases acceptDetail_inv hacc with ⟨hp, hne, _, _, _, _⟩
  have hpx : x.pmid = some r.id := hp
  have hmem := hf _ _ he x hx r.id hpx hne
  exact ⟨hmem, (filterNew_mem hmem).2⟩

theorem records_ids_sublist (q : String) (arts : List PubmedArticleXml) :
    (((arts.map parse_article).filterMap (acceptDetail q)).map (fun r => r.id)).Sublist
      (xmlPmids arts) := by
  induction arts with
  | nil => simp [xmlPmids]
  | cons x rest ih =>
    rw [List.map_cons, List.filterMap_cons]
    unfold xmlPmids
    rw [List.filterMap_cons]
    rcases hacc : acceptDetail q (parse_article x) with _ | r
    · rcases hp : x.pmid with _ | p
      · simp only [hp]
        exact ih
      · by_cases hpe : p = ""
        · simp only [hp, hpe, if_pos, ite_true]
          simpa using ih
        · simp only [hp, hpe, ite_false]
          exact List.Sublist.cons _ ih
    · rcases acceptDetail_inv hacc with ⟨hp, hne, _, _, _, _⟩
      have hp' : x.pmid = some r.id := hp
      simp only [hp', hne, ite_false, List.map_cons]
      exact List.Sublist.cons₂ _ ih

theorem fetch_ids_nodup {es : String → Nat → Option (List String)}
    {ef : List String → Option (List PubmedArticleXml)}
    {L : Finset String} {q : String} {n : Nat}
    (hn : NodupEfetch ef) :
    (((fetch_entrez_articles_for_news_update es ef L q n).records).map
      (fun r => r.id)).Nodup := by
  rcases fetch_cases es ef L q n with hc | ⟨hb, hc⟩
  · rw [hc]
    simp
  · rw [hc]
    simp only
    rw [processLoop_records]
    unfold fetch_pubmed_articles_details
    rw [if_neg hb]
    rcases he : ef (filterNew L n (search_pubmed es q (n + 15))) with _ | arts
    · simp
    · exact (hn _ _ he).sublist (records_ids_sublist q arts)

theorem mem_reload_of_clean {X : String} {S : Finset String}
    (hC : (idLines X).map pyStrip = [X]) (hX : X ∈ S) : X ∈ reload S := by
  unfold reload
  refine Finset.mem_biUnion.mpr ⟨X, hX, ?_⟩
  rw [hC]
  simp

theorem runSeq_count_zero {X : String} {L : Finset String} {specs : List RunSpec}
    (hC : (idLines X).map pyStrip = [X])
    (hh : ∀ s ∈ specs, HonestEfetch s.efetch) (hX : X ∈ L) :
    countAccepted X (runSeq L specs).1 = 0 := by
  induction specs generalizing L with
  | nil => simp [runSeq, countAccepted]
  | cons s rest ih =>
    simp only [runSeq, countAccepted]
    have h1 : ((fetch_entrez_articles_for_news_update s.esearch s.efetch L s.query
        s.n).records.map (fun r => r.id)).count X = 0 := by
      rw [List.count_eq_zero]
      intro hmem
      rcases List.mem_map.mp hmem with ⟨r, hr, hid⟩
      have hnot := (record_id_batch (hh s (List.mem_cons_self _ _)) hr).2
      rw [hid] at hnot
      exact hnot hX
    have h2 : countAccepted X (runSeq
        (((fetch_entrez_articles_for_news_update s.esearch s.efetch L s.query
          s.n).saved.map reload).getD L) rest).1 = 0 := by
      apply ih (fun t ht => hh t (List.mem_cons_of_mem _ ht))
      rcases hsv : (fetch_entrez_articles_for_news_update s.esearch s.efetch L s.query
          s.n).saved with _ | S
      · simpa using hX
      · simp only [Option.map_some', Option.getD_some]
        exact mem_reload_of_clean hC ((saved_superset hsv).1 hX)
    rw [h1, h2]

theorem runSeq_count_le_one {X : String} (L : Finset String) (specs : List RunSpec)
    (hC : (idLines X).map pyStrip = [X])
    (hh : ∀ s ∈ specs, HonestEfetch s.efetch)
    (hn : ∀ s ∈ specs, NodupEfetch s.efetch) :
    countAccepted X (runSeq L specs).1 ≤ 1 := by
  induction specs generalizing L with
  | nil => simp [runSeq, countAccepted]
  | cons s rest ih =>
    simp only [runSeq, countAccepted]
    by_cases hmem : X ∈ (fetch_entrez_articles_for_news_update s.esearch s.efetch L
        s.query s.n).records.map (fun r => r.id)
    · have h1 : ((fetch_entrez_articles_for_news_update s.esearch s.efetch L s.query
          s.n).records.map (fun r => r.id)).count X ≤ 1 :=
        List.nodup_iff_count_le_one.mp (fetch_ids_nodup (hn s (List.mem_cons_self _ _))) X
      have h2 : countAccepted X (runSeq
          (((fetch_entrez_articles_for_news_update s.esearch s.efetch L s.query
            s.n).saved.map reload).getD L) rest).1 = 0 := by
        apply runSeq_count_zero hC (fun t ht => hh t (List.mem_cons_of_mem _ ht))
        rcases List.mem_map.mp hmem with ⟨r, hr, hid⟩
        rcases mem_records_saved hr with ⟨S, hS, hin⟩
        rw [hS]
        simp only [Option.map_some', Option.getD_some]
        rw [hid] at hin
        exact mem_reload_of_clean hC hin
      omega
    · have h1 : ((fetch_entrez_articles_for_news_update s.esearch s.efetch L s.query
          s.n).records.map (fun r => r.id)).count X = 0 :=
        List.count_eq_zero.mpr hmem
      have h2 := ih (((fetch_entrez_articles_for_news_update s.esearch s.efetch L s.query
          s.n).saved.map reload).getD L) (fun t ht => hh t (List.mem_cons_of_mem _ ht))
        (fun t ht => hn t (List.mem_cons_of_mem _ ht))
      omega

theorem efGood_honest : HonestEfetch efGood := by
  intro batch arts h x hx p hp _
  simp only [efGood, Option.some_inj] at h
  subst h
  rcases List.mem_map.mp hx with ⟨b, hb, rfl⟩
  have hbp : b = p := by simpa [goodArticle] using hp
  subst hbp
  exact List.mem_dedup.mp (List.mem_filter.mp hb).1

theorem xmlPmids_map_good (l : List String) :
    xmlPmids (l.map goodArticle) = l.filter (fun p => !(p == "")) := by
  induction l with
  | nil => rfl
  | cons b rest ih =>
    rw [List.map_cons]
    unfold xmlPmids
    rw [List.filterMap_cons, List.filter_cons]
    by_cases hb : b = ""
    · subst hb
      simpa [goodArticle, xmlPmids] using ih
    · simp only [goodArticle]
      simp only [hb, ite_false, if_neg hb]
      simpa [xmlPmids, hb] using ih

theorem efGood_nodup : NodupEfetch efGood := by
  intro batch arts h
  simp only [efGood, Option.some_inj] at h
  subst h
  rw [xmlPmids_map_good]
  exact ((List.nodup_dedup batch).filter _).filter _

theorem resolve_pub_date_head {primary : Option PubDateNode} {hist : List HistoryNode}
    {e : HistoryNode}
    (hhead : (selectHistoryNodes hist).head? = some e)
    (hcond : journal_date primary = NO_DATE ∨ (journal_date primary).length < 10) :
    resolve_pub_date primary hist =
      if historyCandidate e ≠ NO_DATE ∧
          (replaceEmpty (journal_date primary) NO_DATE).length < (historyCandidate e).length
        then historyCandidate e else journal_date primary := by
  simp only [resolve_pub_date]
  rw [if_pos hcond, hhead]

set_option maxRecDepth 16384

/-! Claim theorems. -/

/-- C1, counterexample to the claim as stated: a run whose only candidate has a
short abstract produces no record, and — contrary to the claim — its identifier
`"111"` is NOT in the ledger persisted at the end of that run (the persisted
set is empty). -/
theorem C1_counterexample :
    (fetch_entrez_articles_for_news_update esOne efShort ∅ "cancer treatment" 1).records
        = [] ∧
    (fetch_entrez_articles_for_news_update esOne efShort ∅ "cancer treatment" 1).saved
        = some (∅ : Finset String) ∧
    "111" ∉ ((fetch_entrez_articles_for_news_update esOne efShort ∅ "cancer treatment"
      1).saved.getD ∅) :=
  ⟨by decide, by decide, by decide⟩

/-- C1, amended: an ArticleDetail whose abstract is the no-abstract sentinel
or strips below 50 characters is never converted to an ArticleRecord (every
returned record passes the gate), and the ledger persisted at the end of the
run is exactly the loaded set plus the identifiers of the accepted records —
so a rejected identifier is NOT marked as seen. -/
theorem C1_theorem (es : String → Nat → Option (List String))
    (ef : List String → Option (List PubmedArticleXml))
    (L : Finset String) (q : String) (n : Nat) (S : Finset String)
    (hs : (fetch_entrez_articles_for_news_update es ef L q n).saved = some S) :
    S = L ∪ (((fetch_entrez_articles_for_news_update es ef L q n).records).map
      (fun r => r.id)).toFinset ∧
    ∀ r ∈ (fetch_entrez_articles_for_news_update es ef L q n).records,
      r.summary ≠ NO_ABSTRACT ∧ 50 ≤ (pyStrip r.summary).length := by
  refine ⟨(saved_superset hs).2, ?_⟩
  intro r hr
  rcases mem_records_struct hr with ⟨arts, he, x, hx, hacc⟩
  rcases acceptDetail_inv hacc with ⟨_, _, hsum, hne, hlen, _⟩
  rw [hsum]
  refine ⟨?_, hlen⟩
  intro hcon
  rw [hcon] at hlen
  exact absurd hlen (by decide)

theorem C1_witness :
    (fetch_entrez_articles_for_news_update esAB efGood ∅ "diabetes management" 1).saved
        = some {"111"} ∧
    ({"111"} : Finset String) = ∅ ∪ (((fetch_entrez_articles_for_news_update esAB efGood ∅
      "diabetes management" 1).records).map (fun r => r.id)).toFinset := by
  have h : (fetch_entrez_articles_for_news_update esAB efGood ∅ "diabetes management"
      1).saved = some {"111"} := by decide
  exact ⟨h, (C1_theorem esAB efGood ∅ "diabetes management" 1 {"111"} h).1⟩

/-- C2, counterexample to the claim as stated: with identical adapters in both
runs (two candidates, both valid), the second run — starting from the reloaded
ledger file saved by the first — is NOT empty: it accepts the next unseen
candidate `"222"` from the over-fetched list. -/
theorem C2_counterexample :
    (fetch_entrez_articles_for_news_update esAB efGood
        (((fetch_entrez_articles_for_news_update esAB efGood ∅ "diabetes management"
          1).saved.map reload).getD ∅) "diabetes management" 1).records ≠ [] ∧
    ((fetch_entrez_articles_for_news_update esAB efGood
        (((fetch_entrez_articles_for_news_update esAB efGood ∅ "diabetes management"
          1).saved.map reload).getD ∅) "diabetes management" 1).records.map
      (fun r => r.id)) = ["222"] :=
  ⟨by decide, by decide⟩

/-- C2, amended: running the pipeline twice with the same adapters, the second
run starting from the reloaded (stripped) ledger file saved by the first:
every identifier accepted in the first run that survives the save → load round
trip unchanged — as every real PMID, being newline-free and strip-stable,
does — is in the Ledger when the second run starts, and the second run accepts
no record carrying it (it may still accept other, previously unseen
candidates). -/
theorem C2_theorem (es : String → Nat → Option (List String))
    (ef : List String → Option (List PubmedArticleXml))
    (L : Finset String) (q : String) (n : Nat) (hf : HonestEfetch ef) :
    ∀ r1 ∈ (fetch_entrez_articles_for_news_update es ef L q n).records,
      (idLines r1.id).map pyStrip = [r1.id] →
      r1.id ∈ (((fetch_entrez_articles_for_news_update es ef L q n).saved.map
        reload).getD L) ∧
      ∀ r2 ∈ (fetch_entrez_articles_for_news_update es ef
          (((fetch_entrez_articles_for_news_update es ef L q n).saved.map
            reload).getD L) q n).records,
        r2.id ≠ r1.id := by
  intro r1 hr1 hclean
  rcases mem_records_saved hr1 with ⟨S, hS, hin⟩
  rw [hS]
  simp only [Option.map_some', Option.getD_some]
  have hrel : r1.id ∈ reload S := mem_reload_of_clean hclean hin
  refine ⟨hrel, ?_⟩
  intro r2 hr2 heq
  have hnot := (record_id_batch hf hr2).2
  rw [heq] at hnot
  exact hnot hrel

theorem C2_witness :
    HonestEfetch efGood ∧
    recA ∈ (fetch_entrez_articles_for_news_update esAB efGood ∅ "diabetes management"
      1).records ∧
    (idLines recA.id).map pyStrip = [recA.id] ∧
    recA.id ∈ (((fetch_entrez_articles_for_news_update esAB efGood ∅
      "diabetes management" 1).saved.map reload).getD ∅) := by
  have hmem : recA ∈ (fetch_entrez_articles_for_news_update esAB efGood ∅
      "diabetes management" 1).records := by decide
  have hclean : (idLines recA.id).map pyStrip = [recA.id] := by decide
  exact ⟨efGood_honest, hmem, hclean,
    (C2_theorem esAB efGood ∅ "diabetes management" 1 efGood_honest recA hmem hclean).1⟩

/-- C3, counterexample to the claim as stated: the save → load round trip
strips each line of the ledger file, so the whitespace-padded identifier
`" 1 "` accepted in run 1 (honest, one-article-per-id detail adapter) is
persisted as `" 1 "` but reloaded as `"1"`; run 2's candidate filter then
fails to exclude `" 1 "` and the same identifier is accepted a second time —
two accepted records across the sequence. -/
theorem C3_counterexample :
    countAccepted " 1 " (runSeq ∅ [specPad, specPad]).1 = 2 ∧
    filterNew (reload {" 1 "}) 1 [" 1 "] = [" 1 "] :=
  ⟨by decide, by decide⟩

/-- C3, amended: across any sequence of sequential runs sharing the ledger
file (each run with its own adapters, query term and target count), an
identifier that survives the save → load round trip unchanged — newline-free
and strip-stable, as every real PMID is — occurs in at most one accepted
ArticleRecord; and whenever an identifier is in the ledger a run starts from,
the candidate filter of that run excludes it.  (A whitespace-padded identifier
can be re-accepted, as the counterexample shows.) -/
theorem C3_theorem (L : Finset String) (specs : List RunSpec) (X : String)
    (hC : (idLines X).map pyStrip = [X])
    (hh : ∀ s ∈ specs, HonestEfetch s.efetch)
    (hn : ∀ s ∈ specs, NodupEfetch s.efetch) :
    countAccepted X (runSeq L specs).1 ≤ 1 ∧
    (∀ (L' : Finset String) (n : Nat) (cands : List String),
      X ∈ L' → X ∉ filterNew L' n cands) := by
  refine ⟨runSeq_count_le_one L specs hC hh hn, ?_⟩
  intro L' n cands hX hmem
  exact (filterNew_mem hmem).2 hX

theorem C3_witness :
    HonestEfetch efGood ∧ NodupEfetch efGood ∧
    (idLines "111").map pyStrip = ["111"] ∧
    countAccepted "111" (runSeq ∅ [specGood, specGood]).1 ≤ 1 := by
  have hC : (idLines "111").map pyStrip = ["111"] := by decide
  have hh : ∀ s ∈ [specGood, specGood], HonestEfetch s.efetch := by
    intro s hs
    rcases List.mem_cons.mp hs with rfl | hs
    · exact efGood_honest
    · rcases List.mem_cons.mp hs with rfl | hs
      · exact efGood_honest
      · cases hs
  have hn : ∀ s ∈ [specGood, specGood], NodupEfetch s.efetch := by
    intro s hs
    rcases List.mem_cons.mp hs with rfl | hs
    · exact efGood_nodup
    · rcases List.mem_cons.mp hs with rfl | hs
      · exact efGood_nodup
      · cases hs
  exact ⟨efGood_honest, efGood_nodup, hC,
    (C3_theorem ∅ [specGood, specGood] "111" hC hh hn).1⟩

/-- C4: end-to-end scenario — empty ledger, candidates `["111", "222"]`, valid
long abstracts for both, target count 1: the run returns exactly one record,
for `"111"`; the detail adapter is invoked once, on the batch `["111"]` (so
`"222"` is never fetched); and the persisted ledger is exactly `{"111"}`. -/
theorem C4_theorem :
    ((fetch_entrez_articles_for_news_update esAB efGood ∅ "diabetes management"
      1).records.map (fun r => r.id)) = ["111"] ∧
    (fetch_entrez_articles_for_news_update esAB efGood ∅ "diabetes management"
      1).records.length = 1 ∧
    (fetch_entrez_articles_for_news_update esAB efGood ∅ "diabetes management"
      1).saved = some {"111"} ∧
    (fetch_entrez_articles_for_news_update esAB efGood ∅ "diabetes management"
      1).detailBatches = [["111"]] :=
  ⟨by decide, by decide, by decide, by decide⟩

/-- C5, counterexample to the claim as stated: the history list contains a
full-precision entry tagged with the canonical published status, but it is not
the FIRST such entry, so the resolved date stays `"2023"`, not `"2023-05-14"`. -/
theorem C5_counterexample :
    resolve_pub_date (some ⟨some "2023", none, none⟩)
      [⟨"pubmed", some "2023", none, none⟩, ⟨"pubmed", some "2023", some "05", some "14"⟩]
      = "2023" ∧ ("2023" : String) ≠ "2023-05-14" :=
  ⟨by decide, by decide⟩

/-- C5, amended: when the primary journal location yields only the year
`"2023"` and the FIRST selected history entry (entries with the canonical
published status are selected first) carries the full precision
2023-05-14, the resolved date is `"2023-05-14"`; and in general the fallback
result replaces the primary result only when it is strictly longer than the
primary result (with the no-date sentinel erased). -/
theorem C5_theorem :
    (∀ (hist : List HistoryNode) (st : String),
      (selectHistoryNodes hist).head? = some ⟨st, some "2023", some "05", some "14"⟩ →
      resolve_pub_date (some ⟨some "2023", none, none⟩) hist = "2023-05-14") ∧
    (∀ (primary : Option PubDateNode) (hist : List HistoryNode),
      resolve_pub_date primary hist = journal_date primary ∨
      (replaceEmpty (journal_date primary) NO_DATE).length
          < (resolve_pub_date primary hist).length) := by
  constructor
  · intro hist st hhead
    rw [resolve_pub_date_head hhead (Or.inr (by decide))]
    have hc : historyCandidate ⟨st, some "2023", some "05", some "14"⟩ = "2023-05-14" := rfl
    rw [hc]
    have hjd : journal_date (some ⟨some "2023", none, none⟩) = "2023" := rfl
    rw [hjd]
    rw [if_pos (by decide)]
  · intro primary hist
    simp only [resolve_pub_date]
    by_cases hcond : journal_date primary = NO_DATE ∨ (journal_date primary).length < 10
    · rw [if_pos hcond]
      rcases hhead : (selectHistoryNodes hist).head? with _ | nd
      · exact Or.inl rfl
      · dsimp only
        by_cases hover : historyCandidate nd ≠ NO_DATE ∧
            (replaceEmpty (journal_date primary) NO_DATE).length < (historyCandidate nd).length
        · rw [if_pos hover]
          exact Or.inr hover.2
        · rw [if_neg hover]
          exact Or.inl rfl
    · rw [if_neg hcond]
      exact Or.inl rfl

theorem C5_witness :
    (selectHistoryNodes [⟨"pubmed", some "2023", some "05", some "14"⟩]).head?
        = some (⟨"pubmed", some "2023", some "05", some "14"⟩ : HistoryNode) ∧
    resolve_pub_date (some ⟨some "2023", none, none⟩)
      [⟨"pubmed", some "2023", some "05", some "14"⟩] = "2023-05-14" := by
  have h : (selectHistoryNodes [⟨"pubmed", some "2023", some "05", some "14"⟩]).head?
      = some (⟨"pubmed", some "2023", some "05", some "14"⟩ : HistoryNode) := by decide
  exact ⟨h, C5_theorem.1 _ "pubmed" h⟩

/-- C6, counterexample to the claim as stated: under the sentinel query the
stored query-source label is `"Latest PubMed Articles"`, not the string
`"Latest Articles"` named by the claim. -/
theorem C6_counterexample :
    ((fetch_entrez_articles_for_news_update esAB efGood ∅ GET_LATEST_PUBMED_FLAG
      1).records.map (fun r => r.query)) = ["Latest PubMed Articles"] ∧
    "Latest PubMed Articles" ≠ "Latest Articles" :=
  ⟨by decide, by decide⟩

/-- C6, amended: the sentinel query is never sent upstream — the search adapter
is consulted at the broad expression `"pubmed[sb]"` instead — and the stored
query-source label of every record of a sentinel-query run is the
human-readable `"Latest PubMed Articles"`, never the sentinel token. -/
theorem C6_theorem :
    (∀ (es : String → Nat → Option (List String)) (n : Nat),
      search_pubmed es GET_LATEST_PUBMED_FLAG n = (es "pubmed[sb]" n).getD []) ∧
    "pubmed[sb]" ≠ GET_LATEST_PUBMED_FLAG ∧
    (∀ (es : String → Nat → Option (List String))
      (ef : List String → Option (List PubmedArticleXml))
      (L : Finset String) (n : Nat) (r : ArticleRecord),
      r ∈ (fetch_entrez_articles_for_news_update es ef L GET_LATEST_PUBMED_FLAG n).records →
      r.query = "Latest PubMed Articles" ∧ r.query ≠ GET_LATEST_PUBMED_FLAG) := by
  refine ⟨?_, by decide, ?_⟩
  · intro es n
    simp only [search_pubmed, searchTerm, eq_self_iff_true, if_true]
    rcases es "pubmed[sb]" n with _ | l <;> rfl
  · intro es ef L n r hr
    rcases mem_records_struct hr with ⟨arts, he, x, hx, hacc⟩
    rcases acceptDetail_inv hacc with ⟨_, _, _, _, _, hq⟩
    rw [hq]
    exact ⟨by decide, by decide⟩

theorem C6_witness :
    recFlag ∈ (fetch_entrez_articles_for_news_update esAB efGood ∅ GET_LATEST_PUBMED_FLAG
      1).records ∧
    recFlag.query = "Latest PubMed Articles" ∧ recFlag.query ≠ GET_LATEST_PUBMED_FLAG := by
  have hmem : recFlag ∈ (fetch_entrez_articles_for_news_update esAB efGood ∅
      GET_LATEST_PUBMED_FLAG 1).records := by decide
  exact ⟨hmem, C6_theorem.2.2 esAB efGood ∅ 1 recFlag hmem⟩

/-- C7: an author entry with surname Lee, no given name and initials J
resolves to the display name Lee J; an entry with no name fragment at all
resolves to nothing and is omitted from the list; and when no entry resolves —
or the author list node is absent — the authors field is the single-element
unknown-author sentinel list. -/
theorem C7_theorem :
    resolveAuthor ⟨some "Lee", none, some "J"⟩ = some "Lee J" ∧
    resolveAuthor ⟨none, none, none⟩ = none ∧
    (∀ l1 l2 : List AuthorEntry,
      (l1 ++ (⟨none, none, none⟩ : AuthorEntry) :: l2).filterMap resolveAuthor
        = (l1 ++ l2).filterMap resolveAuthor) ∧
    (∀ entries : List AuthorEntry, entries.filterMap resolveAuthor = [] →
      resolve_authors (some entries) = ["無作者資訊"]) ∧
    resolve_authors none = ["無作者資訊"] ∧
    (∀ x : PubmedArticleXml, (parse_article x).authors = resolve_authors x.authorList) := by
  refine ⟨by decide, by decide, ?_, ?_, rfl, fun x => rfl⟩
  · intro l1 l2
    rw [List.filterMap_append, List.filterMap_append, List.filterMap_cons]
    have h : resolveAuthor ⟨none, none, none⟩ = none := by decide
    rw [h]
  · intro entries hemp
    simp only [resolve_authors]
    rw [hemp]
    rfl

theorem C7_witness :
    ([(⟨none, none, none⟩ : AuthorEntry)].filterMap resolveAuthor = []) ∧
    resolve_authors (some [(⟨none, none, none⟩ : AuthorEntry)]) = ["無作者資訊"] := by
  have h : [(⟨none, none, none⟩ : AuthorEntry)].filterMap resolveAuthor = [] := by decide
  exact ⟨h, C7_theorem.2.2.2.1 [(⟨none, none, none⟩ : AuthorEntry)] h⟩

/-- C8: when the search adapter yields an empty candidate list — because the
upstream search found nothing or because a failure was caught and converted to
an empty list — the pipeline returns no records and never invokes the detail
adapter. -/
theorem C8_theorem (es : String → Nat → Option (List String))
    (ef : List String → Option (List PubmedArticleXml))
    (L : Finset String) (q : String) (n : Nat)
    (h : search_pubmed es q (n + 15) = []) :
    (fetch_entrez_articles_for_news_update es ef L q n).records = [] ∧
    (fetch_entrez_articles_for_news_update es ef L q n).detailBatches = [] := by
  simp only [fetch_entrez_articles_for_news_update]
  rw [if_pos h]
  exact ⟨rfl, rfl⟩

theorem C8_witness :
    search_pubmed esNone "machine learning" (1 + 15) = [] ∧
    (fetch_entrez_articles_for_news_update esNone efGood ∅ "machine learning" 1).records
        = [] ∧
    (fetch_entrez_articles_for_news_update esNone efGood ∅ "machine learning"
      1).detailBatches = [] := by
  have h : search_pubmed esNone "machine learning" (1 + 15) = [] := rfl
  exact ⟨h, C8_theorem esNone efGood ∅ "machine learning" 1 h⟩

/-- C9: the ledger only grows — whenever a run persists a set, that set is a
superset of the set the run loaded. -/
theorem C9_theorem (es : String → Nat → Option (List String))
    (ef : List String → Option (List PubmedArticleXml))
    (L : Finset String) (q : String) (n : Nat) (S : Finset String)
    (hs : (fetch_entrez_articles_for_news_update es ef L q n).saved = some S) :
    L ⊆ S :=
  (saved_superset hs).1

theorem C9_witness :
    (fetch_entrez_articles_for_news_update esAB efGood ∅ "diabetes management" 1).saved
        = some {"111"} ∧ (∅ : Finset String) ⊆ {"111"} := by
  have h : (fetch_entrez_articles_for_news_update esAB efGood ∅ "diabetes management"
      1).saved = some {"111"} := by decide
  exact ⟨h, C9_theorem esAB efGood ∅ "diabetes management" 1 {"111"} h⟩

/-- C10: when the filtered candidate batch is non-empty but the detail adapter
yields an empty detail list (failed request or unparsable document), the run
returns no records and persists exactly the loaded ledger — no identifier of
the failed batch (all of which are outside the loaded ledger) is marked as
seen. -/
theorem C10_theorem (es : String → Nat → Option (List String))
    (ef : List String → Option (List PubmedArticleXml))
    (L : Finset String) (q : String) (n : Nat)
    (hb : filterNew L n (search_pubmed es q (n + 15)) ≠ [])
    (hd : fetch_pubmed_articles_details ef
      (filterNew L n (search_pubmed es q (n + 15))) = []) :
    (fetch_entrez_articles_for_news_update es ef L q n).records = [] ∧
    (fetch_entrez_articles_for_news_update es ef L q n).saved = some L ∧
    ∀ p ∈ filterNew L n (search_pubmed es q (n + 15)), p ∉ L := by
  have hs : search_pubmed es q (n + 15) ≠ [] := by
    intro h0
    apply hb
    rw [h0]
    rfl
  simp only [fetch_entrez_articles_for_news_update]
  rw [if_neg hs, if_neg hb, hd]
  exact ⟨rfl, rfl, fun p hp => (filterNew_mem hp).2⟩

theorem C10_witness :
    filterNew ∅ 1 (search_pubmed esOne "cancer treatment" (1 + 15)) ≠ [] ∧
    fetch_pubmed_articles_details efFail
        (filterNew ∅ 1 (search_pubmed esOne "cancer treatment" (1 + 15))) = [] ∧
    (fetch_entrez_articles_for_news_update esOne efFail ∅ "cancer treatment" 1).records
        = [] ∧
    (fetch_entrez_articles_for_news_update esOne efFail ∅ "cancer treatment" 1).saved
        = some (∅ : Finset String) := by
  have h1 : filterNew ∅ 1 (search_pubmed esOne "cancer treatment" (1 + 15)) ≠ [] := by
    decide
  have h2 : fetch_pubmed_articles_details efFail
      (filterNew ∅ 1 (search_pubmed esOne "cancer treatment" (1 + 15))) = [] := by decide
  refine ⟨h1, h2, ?_, ?_⟩
  · exact (C10_theorem esOne efFail ∅ "cancer treatment" 1 h1 h2).1
  · exact (C10_theorem esOne efFail ∅ "cancer treatment" 1 h1 h2).2.1
